import Mathlib

/-!
Shallow embedding of `src/telegram-bot/money-bot.py` (class `MoneyLoverBot`).

The external collaborators (Gemini completion API, MCP tool subprocess,
Telegram transport) are modelled at their interface boundary: each model or
tool call made during one `handle_message` exchange is an input value
(`Except`: either the returned response or a raised exception), and replies
sent to the user are collected in an output list.  The per-user history dict
`self.conversation_history` is modelled as a partial map from user ids to
turn lists; Python in-place list mutation becomes explicit store update.
-/

namespace MoneyBot

/-- A turn role, `types.Content.role` ("user" or "model"). -/
inductive Role where
  | user
  | model
deriving DecidableEq, Repr

/-- The opposite role. -/
def Role.other : Role → Role
  | .user => .model
  | .model => .user

/-- A JSON-like value for schema entries and function-call arguments. -/
inductive JsonVal where
  | str (s : String)
  | num (n : Int)
  | jbool (b : Bool)
  | jnull
deriving DecidableEq, Repr

/-- `types.FunctionCall`: tool name and argument mapping. -/
structure FunctionCall where
  name : String
  args : List (String × JsonVal)
deriving DecidableEq, Repr

/-- `types.FunctionResponse`: tool name and the `response` dict
(the code always builds `{"result": tool_result_text}`). -/
structure FunctionResponse where
  name : String
  response : List (String × String)
deriving DecidableEq, Repr

/-- `types.Part`: at most one of a text payload, a function call, or a
function response (fields default to `None` in the SDK). -/
structure Part where
  text : Option String
  function_call : Option FunctionCall
  function_response : Option FunctionResponse
deriving DecidableEq, Repr

/-- `types.Part(text=s)`. -/
def Part.ofText (s : String) : Part := ⟨some s, none, none⟩

/-- `types.Part(function_response=fr)`. -/
def Part.ofFunctionResponse (fr : FunctionResponse) : Part := ⟨none, none, some fr⟩

/-- `types.Content`: a role plus a list of parts. -/
structure Content where
  role : Role
  parts : List Part
deriving DecidableEq, Repr

/-- One response candidate (`response.candidates[i]`). -/
structure Candidate where
  content : Content
deriving DecidableEq, Repr

/-- `response.usage_metadata`. -/
structure UsageMetadata where
  total_token_count : Nat
deriving DecidableEq, Repr

/-- A Gemini `generate_content` response, at the boundary the code reads:
its candidate list, optional usage metadata, and the SDK-computed `.text`
convenience accessor (`none` models a missing/None text). -/
structure GenerateResponse where
  candidates : List Candidate
  usage_metadata : Option UsageMetadata
  text : Option String
deriving DecidableEq, Repr

/-- An MCP `call_tool` result: the `.text` of each content item. -/
structure ToolResult where
  content : List String
deriving DecidableEq, Repr

/-- The per-user history dict `self.conversation_history`
(`{user_id: [types.Content, ...]}`); `none` means the key is absent. -/
abbrev Store := Nat → Option (List Content)

/-- The dict at process start: no keys. -/
def empty_store : Store := fun _ => none

/-- `self.conversation_history[user_id] = h`. -/
def store_insert (store : Store) (uid : Nat) (h : List Content) : Store :=
  fun k => if k = uid then some h else store k

/-- The history a user observes: the stored list, or `[]` if the key is
absent (what `get_history` would return without mutating). -/
def historyVal (store : Store) (uid : Nat) : List Content :=
  (store uid).getD []

/-- `MoneyLoverBot.get_history`: returns the user's history, creating an
empty one (registering the key) if needed.  Returns the list together with
the possibly-updated dict. -/
def get_history (store : Store) (uid : Nat) : List Content × Store :=
  match store uid with
  | some h => (h, store)
  | none => ([], store_insert store uid [])

/-- `MoneyLoverBot.reset_history`: clears the user's history. -/
def reset_history (store : Store) (uid : Nat) : Store :=
  store_insert store uid []

/-- Default of `TOKEN_LIMIT = int(os.getenv("TOKEN_LIMIT", "50000"))`. -/
def TOKEN_LIMIT : Nat := 50000

/-- The fallback reply: "Sorry, I couldn't generate a response.". -/
def fallback_reply : String := "Sorry, I couldn't generate a response."

/-- `response.text if hasattr(response, "text") and response.text else
fallback` — Python truthiness: `None` and `""` both fall back. -/
def response_text_or_fallback (r : GenerateResponse) : String :=
  match r.text with
  | some s => if s = "" then fallback_reply else s
  | none => fallback_reply

/-- `response.usage_metadata.total_token_count if response.usage_metadata
else 0`. -/
def total_tokens_of (r : GenerateResponse) : Nat :=
  match r.usage_metadata with
  | some u => u.total_token_count
  | none => 0

/-- Fallback summary body when the summarization call returns no text. -/
def summary_fallback : String := "Previous conversation could not be summarised."

/-- Fallback summary body when the summarization call raises. -/
def summary_error_fallback : String :=
  "Previous conversation history was cleared due to an error."

/-- The f-string prefix of the compressed context message. -/
def summary_marker : String :=
  "[CONVERSATION SUMMARY — treat this as prior context]\n"

/-- The `compressed_context` turn built in `_summarise_and_compress`. -/
def compressed_context (summary_text : String) : Content :=
  ⟨.user, [Part.ofText (summary_marker ++ summary_text)]⟩

/-- The `compressed_ack` turn built in `_summarise_and_compress`. -/
def compressed_ack : Content :=
  ⟨.model, [Part.ofText ("Understood. I have the summary of our previous conversation " ++
      "and will continue from there.")]⟩

/-- The summary body chosen by `_summarise_and_compress`: on a raised
exception the error fallback; on success the response text, or the
"could not summarise" fallback when the text is `None`/empty. -/
def summary_text_of (summaryCall : Except String GenerateResponse) : String :=
  match summaryCall with
  | .ok r =>
    match r.text with
    | some s => if s = "" then summary_fallback else s
    | none => summary_fallback
  | .error _ => summary_error_fallback

/-- `MoneyLoverBot._summarise_and_compress`: below the limit, returns
`False` untouched; otherwise reads (and lazily creates) the history,
returns `False` on an empty history, and otherwise replaces the history
with the two-turn summary seed and returns `True`.  The summarization
model call is the `summaryCall` input. -/
def summarise_and_compress (limit : Nat) (store : Store) (uid : Nat)
    (token_count : Nat) (summaryCall : Except String GenerateResponse) :
    Bool × Store :=
  if token_count < limit then (false, store)
  else
    let hs := get_history store uid
    if hs.1.isEmpty then (false, hs.2)
    else
      (true, store_insert hs.2 uid
        [compressed_context (summary_text_of summaryCall), compressed_ack])

/-- An MCP tool descriptor as read by `get_tools`. -/
structure McpTool where
  name : String
  description : String
  inputSchema : List (String × JsonVal)
deriving DecidableEq, Repr

/-- `dict.pop(k, None)`: drops the entry keyed `k` (dict keys are unique). -/
def dict_pop (k : String) : List (String × JsonVal) → List (String × JsonVal)
  | [] => []
  | p :: d => if p.1 = k then dict_pop k d else p :: dict_pop k d

/-- Dictionary lookup (first matching key). -/
def dict_lookup (k : String) : List (String × JsonVal) → Option JsonVal
  | [] => none
  | p :: d => if p.1 = k then some p.2 else dict_lookup k d

/-- `types.FunctionDeclaration`. -/
structure FunctionDeclaration where
  name : String
  description : String
  parameters : List (String × JsonVal)
deriving DecidableEq, Repr

/-- `types.Tool`: a wrapper holding function declarations. -/
structure Tool where
  function_declarations : List FunctionDeclaration
deriving DecidableEq, Repr

/-- `cleaned_params`: a copy of the schema with `"$schema"` popped and then
`"additionalProperties"` popped. -/
def cleaned_params_of (schema : List (String × JsonVal)) : List (String × JsonVal) :=
  dict_pop "additionalProperties" (dict_pop "$schema" schema)

/-- `MoneyLoverBot.get_tools`: one `types.Tool` per MCP tool, each holding a
single `FunctionDeclaration` with the cleaned parameter schema. -/
def get_tools : List McpTool → List Tool
  | [] => []
  | t :: ts =>
    ⟨[⟨t.name, t.description, cleaned_params_of t.inputSchema⟩]⟩ :: get_tools ts

/-- The outcomes of the external calls an exchange may make: the first
Gemini call, the MCP tool call, the second (post-tool) Gemini call, and the
summarization Gemini call inside the compressor.  `.error e` models the
call raising an exception rendered as the string `e`. -/
structure Env where
  firstCall : Except String GenerateResponse
  toolCall : Except String ToolResult
  secondCall : Except String GenerateResponse
  summaryCall : Except String GenerateResponse

/-- The observable outcome of one `handle_message` run: the history dict
after the exchange, the texts sent to the user in order, whether the
exchange aborted with an exception reply, and the compressor's return. -/
structure ExchangeResult where
  store : Store
  replies : List String
  aborted : Bool
  compressed : Bool

/-- The new user turn `types.Content(role="user", parts=[Part(text=...)])`. -/
def new_user_turn (t : String) : Content := ⟨.user, [Part.ofText t]⟩

/-- `tool_result.content[0].text if tool_result.content else "No result"`. -/
def tool_result_text_of (tr : ToolResult) : String :=
  match tr.content with
  | t :: _ => t
  | [] => "No result"

/-- The `function_response_content` turn built in the tool branch. -/
def function_response_content (fc : FunctionCall) (tool_result_text : String) :
    Content :=
  ⟨.user, [Part.ofFunctionResponse ⟨fc.name, [("result", tool_result_text)]⟩]⟩

/-- The compression notice sent when the compressor returns `True`. -/
def compress_notice : String :=
  "ℹ️ *Conversation memory was compressed.* " ++
  "I've summarised our chat so far and will continue from that summary."

/-- Message a raised `IndexError` renders to in the `Error: {e}` reply. -/
def index_error : String := "list index out of range"

/-- The direct (no tool call) branch of `handle_message`: the reply text is
sent first; then `history.extend([new_user_content,
response.candidates[0].content])` runs — raising (caught as an `Error:`
reply) when there is no candidate — and finally the compressor runs on the
first response's token count. -/
def direct_branch (limit : Nat) (store : Store) (uid : Nat)
    (history : List Content) (new_user_content : Content)
    (response : GenerateResponse)
    (summaryCall : Except String GenerateResponse) : ExchangeResult :=
  let reply_text := response_text_or_fallback response
  match response.candidates with
  | [] => ⟨store, [reply_text, "Error: " ++ index_error], true, false⟩
  | cand :: _ =>
    let history2 := history ++ [new_user_content, cand.content]
    let store2 := store_insert store uid history2
    let res := summarise_and_compress limit store2 uid (total_tokens_of response)
      summaryCall
    ⟨res.2, [reply_text] ++ (if res.1 then [compress_notice] else []), false, res.1⟩

/-- The tool branch of `handle_message`: runs the MCP tool, builds the
function-response turn, issues the second Gemini call, replies, extends the
history with the four new turns (raising when the final response has no
candidate), then runs the compressor on the final response's token count.
A raised tool or model call is caught by the outer handler as an `Error:`
reply with no history change. -/
def tool_branch (limit : Nat) (store : Store) (uid : Nat)
    (history : List Content) (new_user_content : Content)
    (first_cand : Candidate) (fc : FunctionCall) (env : Env) : ExchangeResult :=
  match env.toolCall with
  | .error e => ⟨store, ["Error: " ++ e], true, false⟩
  | .ok tool_result =>
    let frc := function_response_content fc (tool_result_text_of tool_result)
    match env.secondCall with
    | .error e => ⟨store, ["Error: " ++ e], true, false⟩
    | .ok final_response =>
      let reply_text := response_text_or_fallback final_response
      match final_response.candidates with
      | [] => ⟨store, [reply_text, "Error: " ++ index_error], true, false⟩
      | fcand :: _ =>
        let history2 := history ++
          [new_user_content, first_cand.content, frc, fcand.content]
        let store2 := store_insert store uid history2
        let res := summarise_and_compress limit store2 uid
          (total_tokens_of final_response) env.summaryCall
        ⟨res.2, [reply_text] ++ (if res.1 then [compress_notice] else []),
          false, res.1⟩

/-- `MoneyLoverBot.handle_message` for one exchange: registers/reads the
user's history, builds the new user turn, and on the first call's outcome
either aborts with "Error contacting AI: ..." or dispatches on
`response.candidates[0].content.parts[0].function_call` (any missing link
making the condition falsy) to the direct or tool branch. -/
def handle_message (limit : Nat) (store : Store) (uid : Nat)
    (user_text : String) (env : Env) : ExchangeResult :=
  let hs := get_history store uid
  let history := hs.1
  let store1 := hs.2
  let new_user_content := new_user_turn user_text
  match env.firstCall with
  | .error e => ⟨store1, ["Error contacting AI: " ++ e], true, false⟩
  | .ok response =>
    match response.candidates with
    | [] => direct_branch limit store1 uid history new_user_content response
        env.summaryCall
    | cand :: _ =>
      match cand.content.parts with
      | [] => direct_branch limit store1 uid history new_user_content response
          env.summaryCall
      | part :: _ =>
        match part.function_call with
        | none => direct_branch limit store1 uid history new_user_content response
            env.summaryCall
        | some fc => tool_branch limit store1 uid history new_user_content cand
            fc env

/-- The `has_function_call` condition of `handle_message`, as the optional
function call it dispatches on:
`response.candidates and response.candidates[0].content.parts and
response.candidates[0].content.parts[0].function_call`. -/
def first_function_call (r : GenerateResponse) : Option FunctionCall :=
  match r.candidates with
  | [] => none
  | cand :: _ =>
    match cand.content.parts with
    | [] => none
    | part :: _ => part.function_call

/-- Boolean equality of roles. -/
def role_eqb : Role → Role → Bool
  | .user, .user => true
  | .model, .model => true
  | _, _ => false

/-- `alternating_from r rs`: the role list `rs` is `r`, `r.other`, `r`, … -/
def alternating_from : Role → List Role → Bool
  | _, [] => true
  | r, x :: xs => role_eqb x r && alternating_from r.other xs

/-- The role an alternating continuation of `rs` would start with. -/
def end_role : Role → List Role → Role
  | r, [] => r
  | r, _ :: xs => end_role r.other xs

/-- The spec's history invariant: even length, roles strictly alternating
user, model, user, model, … -/
def well_formed (h : List Content) : Bool :=
  alternating_from Role.user (h.map Content.role) && decide (h.length % 2 = 0)

/-- Every candidate content of a successful Gemini response has role
"model" (an API guarantee, stated as a hypothesis on the environment). -/
def ok_model_role : Except String GenerateResponse → Bool
  | .error _ => true
  | .ok r => r.candidates.all (fun c => role_eqb c.content.role Role.model)

/-- Both reply-producing Gemini calls of an exchange return model-role
candidate contents. -/
def responses_model_role (env : Env) : Bool :=
  ok_model_role env.firstCall && ok_model_role env.secondCall

/-- Run a sequence of exchanges (message text plus external-call outcomes)
for one user, threading the history dict. -/
def run_exchanges (limit uid : Nat) : Store → List (String × Env) → Store
  | store, [] => store
  | store, (t, e) :: rest =>
    run_exchanges limit uid (handle_message limit store uid t e).store rest

/-- Every exchange in the sequence fully succeeds (is not aborted),
triggers no compression, and its model calls return model-role contents. -/
def exchanges_all_ok (limit uid : Nat) : Store → List (String × Env) → Bool
  | _, [] => true
  | store, (t, e) :: rest =>
    let r := handle_message limit store uid t e
    !r.aborted && !r.compressed && responses_model_role e &&
      exchanges_all_ok limit uid r.store rest

/-! ## Basic store lemmas -/

lemma store_insert_same (store : Store) (uid : Nat) (h : List Content) :
    store_insert store uid h uid = some h := by
  simp [store_insert]

lemma get_history_fst (store : Store) (uid : Nat) :
    (get_history store uid).1 = historyVal store uid := by
  unfold get_history historyVal
  cases h : store uid <;> simp [h]

lemma get_history_snd_val (store : Store) (uid k : Nat) :
    historyVal (get_history store uid).2 k = historyVal store k := by
  unfold get_history
  cases h : store uid with
  | some l => simp
  | none =>
    by_cases hk : k = uid
    · subst hk
      simp [historyVal, store_insert, h]
    · simp [historyVal, store_insert, hk]

lemma get_history_snd_of_some (store : Store) (uid : Nat) (l : List Content)
    (h : store uid = some l) : (get_history store uid).2 = store := by
  unfold get_history
  simp [h]

/-! ## Compressor lemmas -/

lemma sac_of_lt (limit : Nat) (store : Store) (uid tc : Nat)
    (sc : Except String GenerateResponse) (h : tc < limit) :
    summarise_and_compress limit store uid tc sc = (false, store) := by
  unfold summarise_and_compress
  simp [h]

lemma sac_of_ge_some (limit : Nat) (store : Store) (uid tc : Nat)
    (sc : Except String GenerateResponse) (l : List Content)
    (hge : ¬ tc < limit) (hl : store uid = some l) (hne : l ≠ []) :
    summarise_and_compress limit store uid tc sc =
      (true, store_insert store uid
        [compressed_context (summary_text_of sc), compressed_ack]) := by
  unfold summarise_and_compress get_history
  simp [hge, hl, hne]

lemma sac_false_of_some (limit : Nat) (store : Store) (uid tc : Nat)
    (sc : Except String GenerateResponse) (l : List Content)
    (hl : store uid = some l)
    (h : (summarise_and_compress limit store uid tc sc).1 = false) :
    (summarise_and_compress limit store uid tc sc).2 = store := by
  unfold summarise_and_compress at *
  by_cases hlt : tc < limit
  · simp [hlt]
  · unfold get_history at *
    by_cases hne : l = []
    · subst hne
      simp [hlt, hl]
    · simp [hlt, hl, hne] at h

lemma sac_false_val (limit : Nat) (store : Store) (uid tc : Nat)
    (sc : Except String GenerateResponse)
    (h : (summarise_and_compress limit store uid tc sc).1 = false) (k : Nat) :
    historyVal (summarise_and_compress limit store uid tc sc).2 k =
      historyVal store k := by
  unfold summarise_and_compress at *
  by_cases hlt : tc < limit
  · simp [hlt]
  · simp only [hlt, if_false] at h ⊢
    cases hs : (get_history store uid).1 with
    | nil =>
      simp only [hs, List.isEmpty_nil, if_true]
      exact get_history_snd_val store uid k
    | cons c cs =>
      simp [hs] at h

/-! ## Alternation lemmas -/

lemma Role.other_other (r : Role) : r.other.other = r := by
  cases r <;> rfl

lemma alternating_from_append (r : Role) (xs ys : List Role) :
    alternating_from r (xs ++ ys) =
      (alternating_from r xs && alternating_from (end_role r xs) ys) := by
  induction xs generalizing r with
  | nil => simp [alternating_from, end_role]
  | cons x xs ih =>
    simp [alternating_from, end_role, ih, Bool.and_assoc]

lemma end_role_eq (r : Role) (xs : List Role) :
    end_role r xs = if xs.length % 2 = 0 then r else r.other := by
  induction xs generalizing r with
  | nil => simp [end_role]
  | cons x xs ih =>
    rw [end_role, ih]
    rcases Nat.mod_two_eq_zero_or_one xs.length with h | h
    · have h1 : (xs.length + 1) % 2 = 1 := by omega
      simp [h, h1, List.length_cons]
    · have h1 : (xs.length + 1) % 2 = 0 := by omega
      simp [h, h1, List.length_cons, Role.other_other]

lemma well_formed_append_two (h : List Content) (c1 c2 : Content)
    (hw : well_formed h = true) (h1 : c1.role = Role.user)
    (h2 : c2.role = Role.model) :
    well_formed (h ++ [c1, c2]) = true := by
  unfold well_formed at *
  simp only [Bool.and_eq_true, decide_eq_true_eq] at hw
  obtain ⟨halt, hlen⟩ := hw
  simp only [List.map_append, List.map_cons, List.map_nil, h1, h2,
    alternating_from_append, List.length_append, Bool.and_eq_true,
    decide_eq_true_eq]
  refine ⟨⟨halt, ?_⟩, ?_⟩
  · rw [end_role_eq]
    simp only [List.length_map, hlen, if_pos]
    rfl
  · simp only [List.length_cons, List.length_nil]
    omega

lemma well_formed_append_four (h : List Content) (c1 c2 c3 c4 : Content)
    (hw : well_formed h = true) (h1 : c1.role = Role.user)
    (h2 : c2.role = Role.model) (h3 : c3.role = Role.user)
    (h4 : c4.role = Role.model) :
    well_formed (h ++ [c1, c2, c3, c4]) = true := by
  have : h ++ [c1, c2, c3, c4] = (h ++ [c1, c2]) ++ [c3, c4] := by
    simp
  rw [this]
  exact well_formed_append_two _ _ _ (well_formed_append_two _ _ _ hw h1 h2) h3 h4

/-! ## Equation lemmas for the exchange handler -/

lemma direct_branch_no_candidates (limit : Nat) (store : Store) (uid : Nat)
    (history : List Content) (nuc : Content) (response : GenerateResponse)
    (sc : Except String GenerateResponse) (hcand : response.candidates = []) :
    direct_branch limit store uid history nuc response sc =
      ⟨store, [response_text_or_fallback response, "Error: " ++ index_error],
        true, false⟩ := by
  unfold direct_branch
  simp only [hcand]

lemma direct_branch_eq (limit : Nat) (store : Store) (uid : Nat)
    (history : List Content) (nuc : Content) (response : GenerateResponse)
    (sc : Except String GenerateResponse) (cand : Candidate)
    (rest : List Candidate) (hcand : response.candidates = cand :: rest) :
    direct_branch limit store uid history nuc response sc =
      ⟨(summarise_and_compress limit
          (store_insert store uid (history ++ [nuc, cand.content])) uid
          (total_tokens_of response) sc).2,
        [response_text_or_fallback response] ++
          (if (summarise_and_compress limit
                (store_insert store uid (history ++ [nuc, cand.content])) uid
                (total_tokens_of response) sc).1 then [compress_notice] else []),
        false,
        (summarise_and_compress limit
          (store_insert store uid (history ++ [nuc, cand.content])) uid
          (total_tokens_of response) sc).1⟩ := by
  unfold direct_branch
  simp only [hcand]

lemma tool_branch_tool_error (limit : Nat) (store : Store) (uid : Nat)
    (history : List Content) (nuc : Content) (first_cand : Candidate)
    (fc : FunctionCall) (env : Env) (e : String)
    (h : env.toolCall = .error e) :
    tool_branch limit store uid history nuc first_cand fc env =
      ⟨store, ["Error: " ++ e], true, false⟩ := by
  unfold tool_branch
  simp only [h]

lemma tool_branch_second_error (limit : Nat) (store : Store) (uid : Nat)
    (history : List Content) (nuc : Content) (first_cand : Candidate)
    (fc : FunctionCall) (env : Env) (tr : ToolResult) (e : String)
    (ht : env.toolCall = .ok tr) (h2 : env.secondCall = .error e) :
    tool_branch limit store uid history nuc first_cand fc env =
      ⟨store, ["Error: " ++ e], true, false⟩ := by
  unfold tool_branch
  simp only [ht, h2]

lemma tool_branch_no_candidates (limit : Nat) (store : Store) (uid : Nat)
    (history : List Content) (nuc : Content) (first_cand : Candidate)
    (fc : FunctionCall) (env : Env) (tr : ToolResult)
    (final_response : GenerateResponse)
    (ht : env.toolCall = .ok tr) (h2 : env.secondCall = .ok final_response)
    (hcand : final_response.candidates = []) :
    tool_branch limit store uid history nuc first_cand fc env =
      ⟨store, [response_text_or_fallback final_response,
        "Error: " ++ index_error], true, false⟩ := by
  unfold tool_branch
  simp only [ht, h2, hcand]

lemma tool_branch_eq (limit : Nat) (store : Store) (uid : Nat)
    (history : List Content) (nuc : Content) (first_cand : Candidate)
    (fc : FunctionCall) (env : Env) (tr : ToolResult)
    (final_response : GenerateResponse) (fcand : Candidate)
    (frest : List Candidate)
    (ht : env.toolCall = .ok tr) (h2 : env.secondCall = .ok final_response)
    (hcand : final_response.candidates = fcand :: frest) :
    tool_branch limit store uid history nuc first_cand fc env =
      ⟨(summarise_and_compress limit
          (store_insert store uid (history ++ [nuc, first_cand.content,
            function_response_content fc (tool_result_text_of tr),
            fcand.content])) uid (total_tokens_of final_response)
          env.summaryCall).2,
        [response_text_or_fallback final_response] ++
          (if (summarise_and_compress limit
                (store_insert store uid (history ++ [nuc, first_cand.content,
                  function_response_content fc (tool_result_text_of tr),
                  fcand.content])) uid (total_tokens_of final_response)
                env.summaryCall).1 then [compress_notice] else []),
        false,
        (summarise_and_compress limit
          (store_insert store uid (history ++ [nuc, first_cand.content,
            function_response_content fc (tool_result_text_of tr),
            fcand.content])) uid (total_tokens_of final_response)
          env.summaryCall).1⟩ := by
  unfold tool_branch
  simp only [ht, h2, hcand]

lemma handle_message_first_error (limit : Nat) (store : Store) (uid : Nat)
    (t : String) (env : Env) (e : String) (h : env.firstCall = .error e) :
    handle_message limit store uid t env =
      ⟨(get_history store uid).2, ["Error contacting AI: " ++ e],
        true, false⟩ := by
  unfold handle_message
  simp only [h]

lemma handle_message_direct (limit : Nat) (store : Store) (uid : Nat)
    (t : String) (env : Env) (response : GenerateResponse)
    (hok : env.firstCall = .ok response)
    (hffc : first_function_call response = none) :
    handle_message limit store uid t env =
      direct_branch limit (get_history store uid).2 uid
        (get_history store uid).1 (new_user_turn t) response
        env.summaryCall := by
  unfold handle_message
  simp only [hok]
  unfold first_function_call at hffc
  cases hcand : response.candidates with
  | nil => simp only [hcand]
  | cons cand crest =>
    simp only [hcand] at hffc ⊢
    cases hparts : cand.content.parts with
    | nil => simp only [hparts]
    | cons part prest =>
      simp only [hparts] at hffc ⊢
      simp only [hffc]

lemma handle_message_tool (limit : Nat) (store : Store) (uid : Nat)
    (t : String) (env : Env) (response : GenerateResponse)
    (cand : Candidate) (crest : List Candidate) (part : Part)
    (prest : List Part) (fc : FunctionCall)
    (hok : env.firstCall = .ok response)
    (hcand : response.candidates = cand :: crest)
    (hparts : cand.content.parts = part :: prest)
    (hfc : part.function_call = some fc) :
    handle_message limit store uid t env =
      tool_branch limit (get_history store uid).2 uid
        (get_history store uid).1 (new_user_turn t) cand fc env := by
  unfold handle_message
  simp only [hok, hcand, hparts, hfc]

lemma first_function_call_some (r : GenerateResponse) (fc : FunctionCall)
    (h : first_function_call r = some fc) :
    ∃ cand crest part prest, r.candidates = cand :: crest ∧
      cand.content.parts = part :: prest ∧ part.function_call = some fc := by
  unfold first_function_call at h
  cases hcand : r.candidates with
  | nil => simp only [hcand] at h; cases h
  | cons cand crest =>
    simp only [hcand] at h
    cases hparts : cand.content.parts with
    | nil => simp only [hparts] at h; cases h
    | cons part prest =>
      simp only [hparts] at h
      exact ⟨cand, crest, part, prest, rfl, hparts, h⟩

/-! ## Preservation of the alternation invariant -/

lemma role_eqb_iff (a b : Role) : role_eqb a b = true ↔ a = b := by
  cases a <;> cases b <;> simp [role_eqb]

lemma first_cand_model_of_ok (c : Except String GenerateResponse)
    (r : GenerateResponse) (cand : Candidate) (rest : List Candidate)
    (h : ok_model_role c = true) (hok : c = .ok r)
    (hcand : r.candidates = cand :: rest) : cand.content.role = Role.model := by
  subst hok
  simp only [ok_model_role, hcand, List.all_cons, Bool.and_eq_true,
    role_eqb_iff] at h
  exact h.1

lemma direct_branch_preserves (limit : Nat) (st1 : Store) (uid : Nat)
    (h0 : List Content) (nuc : Content) (response : GenerateResponse)
    (sc : Except String GenerateResponse) (cand : Candidate)
    (crest : List Candidate) (hcand : response.candidates = cand :: crest)
    (hc : (direct_branch limit st1 uid h0 nuc response sc).compressed = false)
    (hw : well_formed h0 = true) (hn : nuc.role = Role.user)
    (hm : cand.content.role = Role.model) :
    well_formed
      (historyVal (direct_branch limit st1 uid h0 nuc response sc).store uid) =
      true := by
  rw [direct_branch_eq limit st1 uid h0 nuc response sc cand crest hcand] at hc ⊢
  have hsome : store_insert st1 uid (h0 ++ [nuc, cand.content]) uid =
      some (h0 ++ [nuc, cand.content]) := store_insert_same _ _ _
  have hcf : (summarise_and_compress limit
      (store_insert st1 uid (h0 ++ [nuc, cand.content])) uid
      (total_tokens_of response) sc).1 = false := hc
  have hres := sac_false_of_some limit
    (store_insert st1 uid (h0 ++ [nuc, cand.content])) uid
    (total_tokens_of response) sc (h0 ++ [nuc, cand.content]) hsome hcf
  show well_formed (historyVal (summarise_and_compress limit
    (store_insert st1 uid (h0 ++ [nuc, cand.content])) uid
    (total_tokens_of response) sc).2 uid) = true
  rw [hres]
  have hval : historyVal (store_insert st1 uid (h0 ++ [nuc, cand.content])) uid =
      h0 ++ [nuc, cand.content] := by
    simp [historyVal, store_insert]
  rw [hval]
  exact well_formed_append_two h0 nuc cand.content hw hn hm

lemma tool_branch_preserves (limit : Nat) (st1 : Store) (uid : Nat)
    (h0 : List Content) (nuc : Content) (first_cand : Candidate)
    (fc : FunctionCall) (env : Env) (tr : ToolResult)
    (final_response : GenerateResponse) (fcand : Candidate)
    (frest : List Candidate)
    (ht : env.toolCall = .ok tr) (h2 : env.secondCall = .ok final_response)
    (hcand : final_response.candidates = fcand :: frest)
    (hc : (tool_branch limit st1 uid h0 nuc first_cand fc env).compressed = false)
    (hw : well_formed h0 = true) (hn : nuc.role = Role.user)
    (hm1 : first_cand.content.role = Role.model)
    (hm2 : fcand.content.role = Role.model) :
    well_formed
      (historyVal (tool_branch limit st1 uid h0 nuc first_cand fc env).store uid) =
      true := by
  rw [tool_branch_eq limit st1 uid h0 nuc first_cand fc env tr final_response
    fcand frest ht h2 hcand] at hc ⊢
  have hsome : store_insert st1 uid (h0 ++ [nuc, first_cand.content,
      function_response_content fc (tool_result_text_of tr), fcand.content]) uid =
      some (h0 ++ [nuc, first_cand.content,
        function_response_content fc (tool_result_text_of tr), fcand.content]) :=
    store_insert_same _ _ _
  have hcf : (summarise_and_compress limit
      (store_insert st1 uid (h0 ++ [nuc, first_cand.content,
        function_response_content fc (tool_result_text_of tr), fcand.content]))
      uid (total_tokens_of final_response) env.summaryCall).1 = false := hc
  have hres := sac_false_of_some limit
    (store_insert st1 uid (h0 ++ [nuc, first_cand.content,
      function_response_content fc (tool_result_text_of tr), fcand.content]))
    uid (total_tokens_of final_response) env.summaryCall
    (h0 ++ [nuc, first_cand.content,
      function_response_content fc (tool_result_text_of tr), fcand.content])
    hsome hcf
  show well_formed (historyVal (summarise_and_compress limit
    (store_insert st1 uid (h0 ++ [nuc, first_cand.content,
      function_response_content fc (tool_result_text_of tr), fcand.content]))
    uid (total_tokens_of final_response) env.summaryCall).2 uid) = true
  rw [hres]
  have hval : historyVal (store_insert st1 uid (h0 ++ [nuc, first_cand.content,
      function_response_content fc (tool_result_text_of tr), fcand.content])) uid =
      h0 ++ [nuc, first_cand.content,
        function_response_content fc (tool_result_text_of tr), fcand.content] := by
    simp [historyVal, store_insert]
  rw [hval]
  exact well_formed_append_four h0 nuc first_cand.content
    (function_response_content fc (tool_result_text_of tr)) fcand.content
    hw hn hm1 rfl hm2

lemma exchange_preserves (limit : Nat) (store : Store) (uid : Nat)
    (t : String) (env : Env)
    (hw : well_formed (historyVal store uid) = true)
    (hroles : responses_model_role env = true)
    (hab : (handle_message limit store uid t env).aborted = false)
    (hc : (handle_message limit store uid t env).compressed = false) :
    well_formed (historyVal (handle_message limit store uid t env).store uid) =
      true := by
  have hw1 : well_formed (get_history store uid).1 = true := by
    rw [get_history_fst]
    exact hw
  simp only [responses_model_role, Bool.and_eq_true] at hroles
  cases hok : env.firstCall with
  | error e =>
    rw [handle_message_first_error limit store uid t env e hok] at hab
    cases hab
  | ok response =>
    cases hffc : first_function_call response with
    | none =>
      rw [handle_message_direct limit store uid t env response hok hffc]
        at hab hc ⊢
      cases hcand : response.candidates with
      | nil =>
        rw [direct_branch_no_candidates _ _ _ _ _ _ _ hcand] at hab
        cases hab
      | cons cand crest =>
        exact direct_branch_preserves limit (get_history store uid).2 uid
          (get_history store uid).1 (new_user_turn t) response env.summaryCall
          cand crest hcand hc hw1 rfl
          (first_cand_model_of_ok env.firstCall response cand crest hroles.1
            hok hcand)
    | some fc =>
      obtain ⟨cand, crest, part, prest, hcand, hparts, hfc⟩ :=
        first_function_call_some response fc hffc
      rw [handle_message_tool limit store uid t env response cand crest part
        prest fc hok hcand hparts hfc] at hab hc ⊢
      cases ht : env.toolCall with
      | error e =>
        rw [tool_branch_tool_error _ _ _ _ _ _ _ _ _ ht] at hab
        cases hab
      | ok tr =>
        cases h2 : env.secondCall with
        | error e =>
          rw [tool_branch_second_error _ _ _ _ _ _ _ _ _ _ ht h2] at hab
          cases hab
        | ok final_response =>
          cases hfcand : final_response.candidates with
          | nil =>
            rw [tool_branch_no_candidates _ _ _ _ _ _ _ _ _ _ ht h2 hfcand] at hab
            cases hab
          | cons fcand frest =>
            exact tool_branch_preserves limit (get_history store uid).2 uid
              (get_history store uid).1 (new_user_turn t) cand fc env tr
              final_response fcand frest ht h2 hfcand hc hw1 rfl
              (first_cand_model_of_ok env.firstCall response cand crest
                hroles.1 hok hcand)
              (first_cand_model_of_ok env.secondCall final_response fcand frest
                hroles.2 h2 hfcand)

lemma run_exchanges_preserves (limit uid : Nat) (inputs : List (String × Env)) :
    ∀ store : Store, well_formed (historyVal store uid) = true →
      exchanges_all_ok limit uid store inputs = true →
      well_formed (historyVal (run_exchanges limit uid store inputs) uid) =
        true := by
  induction inputs with
  | nil => intro store hw _; exact hw
  | cons p rest ih =>
    intro store hw hok
    obtain ⟨t, e⟩ := p
    simp only [exchanges_all_ok, Bool.and_eq_true, Bool.not_eq_true'] at hok
    obtain ⟨⟨⟨hab, hc⟩, hroles⟩, hrest⟩ := hok
    simp only [run_exchanges]
    exact ih (handle_message limit store uid t e).store
      (exchange_preserves limit store uid t e hw hroles hab hc) hrest

/-! ## Further compressor and dictionary lemmas -/

lemma sac_fst_iff (limit : Nat) (store : Store) (uid tc : Nat)
    (sc : Except String GenerateResponse) (l : List Content)
    (hl : store uid = some l) (hne : l ≠ []) :
    (summarise_and_compress limit store uid tc sc).1 = true ↔ limit ≤ tc := by
  unfold summarise_and_compress get_history
  by_cases hlt : tc < limit
  · simp only [if_pos hlt]
    constructor
    · intro h
      cases h
    · intro h
      exact absurd h (by omega)
  · cases l with
    | nil => exact absurd rfl hne
    | cons c cs =>
      simp only [if_neg hlt, hl, List.isEmpty_cons]
      constructor
      · intro _
        omega
      · intro _
        rfl

lemma dict_lookup_pop (j k : String) (d : List (String × JsonVal)) :
    dict_lookup k (dict_pop j d) = if k = j then none else dict_lookup k d := by
  induction d with
  | nil => simp [dict_pop, dict_lookup]
  | cons p d ih =>
    by_cases hpj : p.1 = j
    · by_cases hkj : k = j
      · subst hkj
        simp [dict_pop, hpj, ih]
      · have hjk : ¬ j = k := fun hh => hkj hh.symm
        simp [dict_pop, dict_lookup, hpj, ih, hkj, hjk]
    · by_cases hpk : p.1 = k
      · have hkj : ¬ k = j := fun hh => hpj (by rw [hpk]; exact hh)
        simp [dict_pop, dict_lookup, hpj, hpk, hkj]
      · simp [dict_pop, dict_lookup, hpj, hpk, ih]

/-! ## Concrete fixtures used by witnesses -/

/-- A model-role text turn, as Gemini returns it. -/
def demo_model_content (s : String) : Content := ⟨.model, [Part.ofText s]⟩

/-- A well-shaped Gemini response: one model-role text candidate, usage
metadata, and the matching `.text`. -/
def demo_resp (s : String) (tok : Nat) : GenerateResponse :=
  ⟨[⟨demo_model_content s⟩], some ⟨tok⟩, some s⟩

/-- An exchange environment where every call succeeds and no tool call is
requested. -/
def demo_env : Env :=
  ⟨.ok (demo_resp "hello" 10), .ok ⟨[]⟩, .ok (demo_resp "hello" 10),
    .ok (demo_resp "summary" 5)⟩

/-- A store where user 1 has one completed exchange of history. -/
def demo_store : Store :=
  store_insert empty_store 1 [new_user_turn "x", demo_model_content "y"]

/-- An environment whose first Gemini call raises. -/
def err_env : Env :=
  ⟨.error "boom", .ok ⟨[]⟩, .ok (demo_resp "h" 1), .ok (demo_resp "s" 1)⟩

/-- A store where user 3 is registered with an empty history. -/
def empty_history_store : Store := store_insert empty_store 3 []

/-- Two successful, uncompressed direct exchanges for user 1. -/
def c1_inputs : List (String × Env) := [("hi", demo_env), ("again", demo_env)]

/-- A part carrying a function call, as the model emits it. -/
def tool_part (fc : FunctionCall) : Part := ⟨none, some fc, none⟩

/-- A concrete tool invocation request. -/
def demo_fc : FunctionCall := ⟨"get_balance", []⟩

/-- A first response requesting a tool call. -/
def tool_resp : GenerateResponse :=
  ⟨[⟨⟨.model, [tool_part demo_fc]⟩⟩], some ⟨7⟩, none⟩

/-- A full tool-call exchange environment. -/
def tool_env : Env :=
  ⟨.ok tool_resp, .ok ⟨["42"]⟩, .ok (demo_resp "done" 12), .ok (demo_resp "s" 1)⟩

/-- A well-shaped direct response that reports no usage metadata. -/
def no_usage_resp : GenerateResponse := ⟨[⟨demo_model_content "ok"⟩], none, some "ok"⟩

/-- A direct exchange whose final (first) response lacks usage metadata. -/
def no_usage_env : Env :=
  ⟨.ok no_usage_resp, .ok ⟨[]⟩, .ok no_usage_resp, .ok (demo_resp "s" 1)⟩

/-- A tool exchange whose final (second) response lacks usage metadata. -/
def no_usage_tool_env : Env :=
  ⟨.ok tool_resp, .ok ⟨["42"]⟩, .ok no_usage_resp, .ok (demo_resp "s" 1)⟩

/-- A first response with no candidates at all (and no text). -/
def c8_env : Env :=
  ⟨.ok ⟨[], none, none⟩, .ok ⟨[]⟩, .ok (demo_resp "x" 1), .ok (demo_resp "s" 1)⟩

/-- A first response with a candidate whose first part is plain text but
whose `.text` accessor is `None`. -/
def c8b_resp : GenerateResponse := ⟨[⟨demo_model_content "x"⟩], some ⟨1⟩, none⟩

/-- Environment for the malformed-but-candidate-bearing direct reply. -/
def c8b_env : Env :=
  ⟨.ok c8b_resp, .ok ⟨[]⟩, .ok (demo_resp "x" 1), .ok (demo_resp "s" 1)⟩

/-! ## Claim theorems -/

/-- C1: for every user, after any number of completed exchanges (each fully
succeeding, with model calls returning model-role contents) with no
compression event, the stored history has even length and strictly
alternates roles user, model, user, model, …, starting with a user turn. -/
theorem history_alternation_after_exchanges (limit uid : Nat)
    (inputs : List (String × Env))
    (hok : exchanges_all_ok limit uid empty_store inputs = true) :
    well_formed (historyVal (run_exchanges limit uid empty_store inputs) uid) =
      true :=
  run_exchanges_preserves limit uid inputs empty_store rfl hok

/-- Witness for C1: two concrete direct exchanges leave user 1 with a
well-formed alternating history. -/
theorem history_alternation_after_exchanges_witness :
    exchanges_all_ok 50000 1 empty_store c1_inputs = true ∧
    well_formed (historyVal (run_exchanges 50000 1 empty_store c1_inputs) 1) =
      true :=
  ⟨by decide, history_alternation_after_exchanges 50000 1 c1_inputs (by decide)⟩

/-- C2: whenever the compressor reports that compression happened, the
user's stored history is exactly the two-turn seed: a user turn carrying
the summary-context marker plus the summary text, then the fixed model
acknowledgment — regardless of the prior history. -/
theorem compression_replaces_history_with_summary_seed (limit : Nat)
    (store : Store) (uid token_count : Nat)
    (sc : Except String GenerateResponse)
    (h : (summarise_and_compress limit store uid token_count sc).1 = true) :
    ∃ s, (summarise_and_compress limit store uid token_count sc).2 uid =
      some [compressed_context s, compressed_ack] := by
  refine ⟨summary_text_of sc, ?_⟩
  unfold summarise_and_compress at h ⊢
  by_cases hlt : token_count < limit
  · simp [hlt] at h
  · rw [if_neg hlt] at h ⊢
    cases hl : (get_history store uid).1 with
    | nil => simp [hl] at h
    | cons c cs => simp [hl, store_insert]

/-- Witness for C2: a concrete over-limit compression for user 1 yields the
two-turn seed. -/
theorem compression_replaces_history_with_summary_seed_witness :
    (summarise_and_compress 1 demo_store 1 5 (.ok (demo_resp "sum" 3))).1 =
      true ∧
    ∃ s, (summarise_and_compress 1 demo_store 1 5 (.ok (demo_resp "sum" 3))).2 1 =
      some [compressed_context s, compressed_ack] :=
  ⟨by decide, compression_replaces_history_with_summary_seed 1 demo_store 1 5 _
    (by decide)⟩

/-- C5: if the first model call raises, the exchange aborts: the only reply
is the "Error contacting AI: …"-prefixed message, every user's observable
history is unchanged, and no compression occurs. -/
theorem first_call_error_aborts_exchange (limit : Nat) (store : Store)
    (uid : Nat) (t : String) (env : Env) (e : String)
    (h : env.firstCall = .error e) :
    (handle_message limit store uid t env).replies =
      ["Error contacting AI: " ++ e] ∧
    (∀ k, historyVal (handle_message limit store uid t env).store k =
      historyVal store k) ∧
    (handle_message limit store uid t env).compressed = false := by
  rw [handle_message_first_error limit store uid t env e h]
  exact ⟨rfl, fun k => get_history_snd_val store uid k, rfl⟩

/-- Witness for C5: a concrete failing first call for user 7. -/
theorem first_call_error_aborts_exchange_witness :
    err_env.firstCall = .error "boom" ∧
    (handle_message 50000 empty_store 7 "hi" err_env).replies =
      ["Error contacting AI: " ++ "boom"] ∧
    historyVal (handle_message 50000 empty_store 7 "hi" err_env).store 7 =
      historyVal empty_store 7 :=
  ⟨rfl,
    (first_call_error_aborts_exchange 50000 empty_store 7 "hi" err_env "boom"
      rfl).1,
    (first_call_error_aborts_exchange 50000 empty_store 7 "hi" err_env "boom"
      rfl).2.1 7⟩

/-- C10: for a user whose stored history is empty, the compressor returns
`False` and leaves the store unchanged, for every token count (including
counts at or above the limit) and every summarization outcome. -/
theorem empty_history_never_compresses (limit : Nat) (store : Store)
    (uid token_count : Nat) (sc : Except String GenerateResponse)
    (h : store uid = some []) :
    summarise_and_compress limit store uid token_count sc = (false, store) := by
  unfold summarise_and_compress
  by_cases hlt : token_count < limit
  · rw [if_pos hlt]
  · rw [if_neg hlt]
    unfold get_history
    simp [h]

/-- Witness for C10: user 3 has an empty history and a token count of 99
with limit 1; the compressor still declines and changes nothing. -/
theorem empty_history_never_compresses_witness :
    empty_history_store 3 = some [] ∧
    summarise_and_compress 1 empty_history_store 3 99 (.ok (demo_resp "s" 2)) =
      (false, empty_history_store) :=
  ⟨rfl, empty_history_never_compresses 1 empty_history_store 3 99 _ rfl⟩

/-- C3: the per-exchange compression check uses `>=` on the token count of
whichever model call produced the final reply: strictly below the limit the
compressor returns `False` with the history untouched, at or above the
limit the exchange's compression triggers, and the compressor's boolean
return matches whether the history changed. -/
theorem compression_threshold_uses_ge (limit : Nat) :
    (∀ (store : Store) (uid tc : Nat) (sc : Except String GenerateResponse),
      tc < limit →
      summarise_and_compress limit store uid tc sc = (false, store)) ∧
    (∀ (store : Store) (uid tc : Nat) (sc : Except String GenerateResponse),
      (summarise_and_compress limit store uid tc sc).1 = false →
      ∀ k, historyVal (summarise_and_compress limit store uid tc sc).2 k =
        historyVal store k) ∧
    (∀ (store : Store) (uid : Nat) (t : String) (env : Env)
      (resp : GenerateResponse) (cand : Candidate) (crest : List Candidate),
      env.firstCall = .ok resp → resp.candidates = cand :: crest →
      first_function_call resp = none →
      ((handle_message limit store uid t env).compressed = true ↔
        limit ≤ total_tokens_of resp)) ∧
    (∀ (store : Store) (uid : Nat) (t : String) (env : Env)
      (resp finr : GenerateResponse) (fc : FunctionCall) (tr : ToolResult)
      (fcand : Candidate) (frest : List Candidate),
      env.firstCall = .ok resp → first_function_call resp = some fc →
      env.toolCall = .ok tr → env.secondCall = .ok finr →
      finr.candidates = fcand :: frest →
      ((handle_message limit store uid t env).compressed = true ↔
        limit ≤ total_tokens_of finr)) := by
  refine ⟨fun store uid tc sc h => sac_of_lt limit store uid tc sc h,
    fun store uid tc sc h k => sac_false_val limit store uid tc sc h k,
    ?_, ?_⟩
  · intro store uid t env resp cand crest hok hcand hffc
    rw [handle_message_direct limit store uid t env resp hok hffc]
    rw [direct_branch_eq limit (get_history store uid).2 uid
      (get_history store uid).1 (new_user_turn t) resp env.summaryCall cand
      crest hcand]
    exact sac_fst_iff limit
      (store_insert (get_history store uid).2 uid
        ((get_history store uid).1 ++ [new_user_turn t, cand.content])) uid
      (total_tokens_of resp) env.summaryCall
      ((get_history store uid).1 ++ [new_user_turn t, cand.content])
      (store_insert_same _ _ _) (by simp)
  · intro store uid t env resp finr fc tr fcand frest hok hffc ht h2 hfcand
    obtain ⟨cand, crest, part, prest, hcand, hparts, hfc⟩ :=
      first_function_call_some resp fc hffc
    rw [handle_message_tool limit store uid t env resp cand crest part prest
      fc hok hcand hparts hfc]
    rw [tool_branch_eq limit (get_history store uid).2 uid
      (get_history store uid).1 (new_user_turn t) cand fc env tr finr fcand
      frest ht h2 hfcand]
    exact sac_fst_iff limit
      (store_insert (get_history store uid).2 uid
        ((get_history store uid).1 ++ [new_user_turn t, cand.content,
          function_response_content fc (tool_result_text_of tr),
          fcand.content])) uid
      (total_tokens_of finr) env.summaryCall
      ((get_history store uid).1 ++ [new_user_turn t, cand.content,
        function_response_content fc (tool_result_text_of tr), fcand.content])
      (store_insert_same _ _ _) (by simp)

/-- Witness for C3: the four conjuncts at concrete inputs — a below-limit
call declines and leaves the store alone, and a direct and a tool exchange
each compress exactly when the final reply's token count reaches the
limit. -/
theorem compression_threshold_uses_ge_witness :
    (5 : Nat) < 50000 ∧
    summarise_and_compress 50000 demo_store 1 5 (.ok (demo_resp "s" 3)) =
      (false, demo_store) ∧
    historyVal
      (summarise_and_compress 50000 demo_store 1 5 (.ok (demo_resp "s" 3))).2 1 =
      historyVal demo_store 1 ∧
    ((handle_message 50000 empty_store 1 "hi" demo_env).compressed = true ↔
      50000 ≤ total_tokens_of (demo_resp "hello" 10)) ∧
    ((handle_message 50000 empty_store 1 "hi" tool_env).compressed = true ↔
      50000 ≤ total_tokens_of (demo_resp "done" 12)) :=
  ⟨by decide,
    (compression_threshold_uses_ge 50000).1 demo_store 1 5 _ (by decide),
    (compression_threshold_uses_ge 50000).2.1 demo_store 1 5
      (.ok (demo_resp "s" 3)) (by decide) 1,
    (compression_threshold_uses_ge 50000).2.2.1 empty_store 1 "hi" demo_env
      (demo_resp "hello" 10) ⟨demo_model_content "hello"⟩ [] rfl rfl rfl,
    (compression_threshold_uses_ge 50000).2.2.2 empty_store 1 "hi" tool_env
      tool_resp (demo_resp "done" 12) demo_fc ⟨["42"]⟩
      ⟨demo_model_content "done"⟩ [] rfl rfl rfl rfl rfl⟩

/-- C4: in a successful uncompressed exchange, the history update appends
exactly the new user turn followed by the model's turn (direct reply), or
the new user turn, the model's tool-call turn, the tool-result user turn
and the final model turn (tool call) — in both cases ending on a model
turn when the model responses carry model-role contents. -/
theorem history_update_turn_shapes (limit : Nat) (store : Store) (uid : Nat)
    (t : String) (env : Env) :
    (∀ (resp : GenerateResponse) (cand : Candidate) (crest : List Candidate),
      env.firstCall = .ok resp → resp.candidates = cand :: crest →
      first_function_call resp = none →
      cand.content.role = Role.model →
      (handle_message limit store uid t env).compressed = false →
      (handle_message limit store uid t env).store uid =
        some (historyVal store uid ++ [new_user_turn t, cand.content]) ∧
      ((historyVal store uid ++
        [new_user_turn t, cand.content]).getLast?).map Content.role =
        some Role.model) ∧
    (∀ (resp finr : GenerateResponse) (fc : FunctionCall) (tr : ToolResult)
      (fcand : Candidate) (frest : List Candidate),
      env.firstCall = .ok resp → first_function_call resp = some fc →
      env.toolCall = .ok tr → env.secondCall = .ok finr →
      finr.candidates = fcand :: frest →
      fcand.content.role = Role.model →
      (handle_message limit store uid t env).compressed = false →
      ∃ cand crest, resp.candidates = cand :: crest ∧
        (handle_message limit store uid t env).store uid =
          some (historyVal store uid ++ [new_user_turn t, cand.content,
            function_response_content fc (tool_result_text_of tr),
            fcand.content]) ∧
        ((historyVal store uid ++ [new_user_turn t, cand.content,
          function_response_content fc (tool_result_text_of tr),
          fcand.content]).getLast?).map Content.role = some Role.model) := by
  constructor
  · intro resp cand crest hok hcand hffc hrole hc
    rw [handle_message_direct limit store uid t env resp hok hffc] at hc ⊢
    rw [direct_branch_eq limit (get_history store uid).2 uid
      (get_history store uid).1 (new_user_turn t) resp env.summaryCall cand
      crest hcand] at hc ⊢
    have hcf : (summarise_and_compress limit
        (store_insert (get_history store uid).2 uid
          ((get_history store uid).1 ++ [new_user_turn t, cand.content])) uid
        (total_tokens_of resp) env.summaryCall).1 = false := hc
    have hres := sac_false_of_some limit
      (store_insert (get_history store uid).2 uid
        ((get_history store uid).1 ++ [new_user_turn t, cand.content])) uid
      (total_tokens_of resp) env.summaryCall
      ((get_history store uid).1 ++ [new_user_turn t, cand.content])
      (store_insert_same _ _ _) hcf
    constructor
    · show (summarise_and_compress limit
        (store_insert (get_history store uid).2 uid
          ((get_history store uid).1 ++ [new_user_turn t, cand.content])) uid
        (total_tokens_of resp) env.summaryCall).2 uid =
        some (historyVal store uid ++ [new_user_turn t, cand.content])
      rw [hres, get_history_fst]
      exact store_insert_same _ _ _
    · have hsplit : historyVal store uid ++ [new_user_turn t, cand.content] =
          (historyVal store uid ++ [new_user_turn t]) ++ [cand.content] := by
        simp
      rw [hsplit, List.getLast?_concat]
      simp [hrole]
  · intro resp finr fc tr fcand frest hok hffc ht h2 hfcand hrole hc
    obtain ⟨cand, crest, part, prest, hcand, hparts, hfc⟩ :=
      first_function_call_some resp fc hffc
    refine ⟨cand, crest, hcand, ?_, ?_⟩
    · rw [handle_message_tool limit store uid t env resp cand crest part prest
        fc hok hcand hparts hfc] at hc ⊢
      rw [tool_branch_eq limit (get_history store uid).2 uid
        (get_history store uid).1 (new_user_turn t) cand fc env tr finr fcand
        frest ht h2 hfcand] at hc ⊢
      have hcf : (summarise_and_compress limit
          (store_insert (get_history store uid).2 uid
            ((get_history store uid).1 ++ [new_user_turn t, cand.content,
              function_response_content fc (tool_result_text_of tr),
              fcand.content])) uid
          (total_tokens_of finr) env.summaryCall).1 = false := hc
      have hres := sac_false_of_some limit
        (store_insert (get_history store uid).2 uid
          ((get_history store uid).1 ++ [new_user_turn t, cand.content,
            function_response_content fc (tool_result_text_of tr),
            fcand.content])) uid
        (total_tokens_of finr) env.summaryCall
        ((get_history store uid).1 ++ [new_user_turn t, cand.content,
          function_response_content fc (tool_result_text_of tr),
          fcand.content])
        (store_insert_same _ _ _) hcf
      show (summarise_and_compress limit
        (store_insert (get_history store uid).2 uid
          ((get_history store uid).1 ++ [new_user_turn t, cand.content,
            function_response_content fc (tool_result_text_of tr),
            fcand.content])) uid
        (total_tokens_of finr) env.summaryCall).2 uid =
        some (historyVal store uid ++ [new_user_turn t, cand.content,
          function_response_content fc (tool_result_text_of tr),
          fcand.content])
      rw [hres, get_history_fst]
      exact store_insert_same _ _ _
    · have hsplit : historyVal store uid ++ [new_user_turn t, cand.content,
          function_response_content fc (tool_result_text_of tr),
          fcand.content] =
          (historyVal store uid ++ [new_user_turn t, cand.content,
            function_response_content fc (tool_result_text_of tr)]) ++
            [fcand.content] := by
        simp
      rw [hsplit, List.getLast?_concat]
      simp [hrole]

/-- Witness for C4: a concrete direct exchange appends two turns and a
concrete tool exchange appends four, each ending on the model turn. -/
theorem history_update_turn_shapes_witness :
    ((handle_message 50000 empty_store 1 "hi" demo_env).store 1 =
      some (historyVal empty_store 1 ++
        [new_user_turn "hi", demo_model_content "hello"]) ∧
      ((historyVal empty_store 1 ++
        [new_user_turn "hi", demo_model_content "hello"]).getLast?).map
        Content.role = some Role.model) ∧
    (∃ cand crest, tool_resp.candidates = cand :: crest ∧
      (handle_message 50000 empty_store 1 "pay" tool_env).store 1 =
        some (historyVal empty_store 1 ++ [new_user_turn "pay", cand.content,
          function_response_content demo_fc (tool_result_text_of ⟨["42"]⟩),
          demo_model_content "done"]) ∧
      ((historyVal empty_store 1 ++ [new_user_turn "pay", cand.content,
        function_response_content demo_fc (tool_result_text_of ⟨["42"]⟩),
        demo_model_content "done"]).getLast?).map Content.role =
        some Role.model) :=
  ⟨(history_update_turn_shapes 50000 empty_store 1 "hi" demo_env).1
      (demo_resp "hello" 10) ⟨demo_model_content "hello"⟩ [] rfl rfl rfl rfl
      (by decide),
    (history_update_turn_shapes 50000 empty_store 1 "pay" tool_env).2
      tool_resp (demo_resp "done" 12) demo_fc ⟨["42"]⟩
      ⟨demo_model_content "done"⟩ [] rfl rfl rfl rfl rfl rfl (by decide)⟩

/-- C9: for any exchange whose final model response (first response for a
direct reply, second for a tool call) carries no usage metadata, the token
count passed to the compressor is zero, so compression never triggers for
that exchange (for any positive configured limit). -/
theorem missing_usage_metadata_never_compresses (limit : Nat) (store : Store)
    (uid : Nat) (t : String) (env : Env) (hpos : 0 < limit) :
    (∀ resp : GenerateResponse, env.firstCall = .ok resp →
      first_function_call resp = none → resp.usage_metadata = none →
      total_tokens_of resp = 0 ∧
      (handle_message limit store uid t env).compressed = false) ∧
    (∀ (resp finr : GenerateResponse) (fc : FunctionCall),
      env.firstCall = .ok resp → first_function_call resp = some fc →
      env.secondCall = .ok finr → finr.usage_metadata = none →
      total_tokens_of finr = 0 ∧
      (handle_message limit store uid t env).compressed = false) := by
  constructor
  · intro resp hok hffc hm
    have htok : total_tokens_of resp = 0 := by
      unfold total_tokens_of
      rw [hm]
    refine ⟨htok, ?_⟩
    rw [handle_message_direct limit store uid t env resp hok hffc]
    cases hcand : resp.candidates with
    | nil =>
      rw [direct_branch_no_candidates _ _ _ _ _ _ _ hcand]
    | cons cand crest =>
      rw [direct_branch_eq limit (get_history store uid).2 uid
        (get_history store uid).1 (new_user_turn t) resp env.summaryCall cand
        crest hcand]
      show (summarise_and_compress limit
        (store_insert (get_history store uid).2 uid
          ((get_history store uid).1 ++ [new_user_turn t, cand.content])) uid
        (total_tokens_of resp) env.summaryCall).1 = false
      rw [sac_of_lt _ _ _ _ _ (by omega)]
  · intro resp finr fc hok hffc h2 hm
    have htok : total_tokens_of finr = 0 := by
      unfold total_tokens_of
      rw [hm]
    refine ⟨htok, ?_⟩
    obtain ⟨cand, crest, part, prest, hcand, hparts, hfc⟩ :=
      first_function_call_some resp fc hffc
    rw [handle_message_tool limit store uid t env resp cand crest part prest
      fc hok hcand hparts hfc]
    cases ht : env.toolCall with
    | error e =>
      rw [tool_branch_tool_error _ _ _ _ _ _ _ _ _ ht]
    | ok tr =>
      cases hfcand : finr.candidates with
      | nil =>
        rw [tool_branch_no_candidates _ _ _ _ _ _ _ _ _ _ ht h2 hfcand]
      | cons fcand frest =>
        rw [tool_branch_eq limit (get_history store uid).2 uid
          (get_history store uid).1 (new_user_turn t) cand fc env tr finr
          fcand frest ht h2 hfcand]
        show (summarise_and_compress limit
          (store_insert (get_history store uid).2 uid
            ((get_history store uid).1 ++ [new_user_turn t, cand.content,
              function_response_content fc (tool_result_text_of tr),
              fcand.content])) uid
          (total_tokens_of finr) env.summaryCall).1 = false
        rw [sac_of_lt _ _ _ _ _ (by omega)]

/-- Witness for C9: concrete direct and tool exchanges whose final response
lacks usage metadata pass a zero token count and do not compress. -/
theorem missing_usage_metadata_never_compresses_witness :
    (0 : Nat) < 50000 ∧
    (total_tokens_of no_usage_resp = 0 ∧
      (handle_message 50000 empty_store 1 "m" no_usage_env).compressed =
        false) ∧
    (total_tokens_of no_usage_resp = 0 ∧
      (handle_message 50000 empty_store 1 "m" no_usage_tool_env).compressed =
        false) :=
  ⟨by decide,
    (missing_usage_metadata_never_compresses 50000 empty_store 1 "m"
      no_usage_env (by decide)).1 no_usage_resp rfl rfl rfl,
    (missing_usage_metadata_never_compresses 50000 empty_store 1 "m"
      no_usage_tool_env (by decide)).2 tool_resp no_usage_resp demo_fc rfl rfl
      rfl rfl⟩

/-- C7: tool-descriptor translation yields one wrapper per source tool, in
order, each holding exactly one function declaration with the tool's name
and description, whose parameter schema drops exactly the `$schema` and
`additionalProperties` keys and preserves every other key's value. -/
theorem get_tools_translation :
    (∀ ts : List McpTool, (get_tools ts).length = ts.length) ∧
    (∀ (ts : List McpTool) (i : Nat),
      (get_tools ts)[i]? = (ts[i]?).map (fun t =>
        ⟨[⟨t.name, t.description, cleaned_params_of t.inputSchema⟩]⟩)) ∧
    (∀ (schema : List (String × JsonVal)) (k : String),
      dict_lookup k (cleaned_params_of schema) =
        if k = "$schema" ∨ k = "additionalProperties" then none
        else dict_lookup k schema) := by
  refine ⟨?_, ?_, ?_⟩
  · intro ts
    induction ts with
    | nil => rfl
    | cons t ts ih => simp [get_tools, ih]
  · intro ts
    induction ts with
    | nil => intro i; simp [get_tools]
    | cons t ts ih =>
      intro i
      cases i with
      | zero => simp [get_tools]
      | succ n => simp [get_tools, ih n]
  · intro schema k
    unfold cleaned_params_of
    rw [dict_lookup_pop, dict_lookup_pop]
    by_cases h1 : k = "$schema"
    · have h2 : ¬ k = "additionalProperties" := by
        rw [h1]
        decide
      simp [h1, h2]
    · by_cases h2 : k = "additionalProperties"
      · simp [h1, h2]
      · simp [h1, h2]

/-- C6 counterexample: at a concrete over-limit state whose summarization
call raises, compression does happen, but the seeded summary body is the
"history was cleared due to an error" literal, not the "could not
summarise" literal the claim names. -/
theorem summarise_failure_text_counterexample :
    (summarise_and_compress 1 demo_store 1 5 (.error "boom")).1 = true ∧
    (summarise_and_compress 1 demo_store 1 5 (.error "boom")).2 1 ≠
      some [compressed_context summary_fallback, compressed_ack] ∧
    (summarise_and_compress 1 demo_store 1 5 (.error "boom")).2 1 =
      some [compressed_context summary_error_fallback, compressed_ack] := by
  decide

/-- C6 amended: when the threshold is reached on a non-empty history and
the summarization model call raises, the compressor uses the fixed
"history was cleared due to an error" text as the summary body, still
replaces the history with the two-turn summary/acknowledgment seed (no
hard reset), and a direct exchange still completes unaborted. -/
theorem summarise_failure_falls_back_to_error_text :
    (∀ (limit : Nat) (store : Store) (uid tc : Nat) (e : String)
      (l : List Content), ¬ tc < limit → store uid = some l → l ≠ [] →
      summarise_and_compress limit store uid tc (.error e) =
        (true, store_insert store uid
          [compressed_context summary_error_fallback, compressed_ack])) ∧
    (∀ (limit : Nat) (store : Store) (uid : Nat) (t : String) (env : Env)
      (resp : GenerateResponse) (cand : Candidate) (crest : List Candidate),
      env.firstCall = .ok resp → resp.candidates = cand :: crest →
      first_function_call resp = none →
      (handle_message limit store uid t env).aborted = false) := by
  constructor
  · intro limit store uid tc e l hge hl hne
    rw [sac_of_ge_some limit store uid tc (.error e) l hge hl hne]
    rfl
  · intro limit store uid t env resp cand crest hok hcand hffc
    rw [handle_message_direct limit store uid t env resp hok hffc]
    rw [direct_branch_eq limit (get_history store uid).2 uid
      (get_history store uid).1 (new_user_turn t) resp env.summaryCall cand
      crest hcand]

/-- Witness for C6 amended: a concrete failing summarization still installs
the two-turn seed with the error-fallback body, and a concrete direct
exchange with a failing summarization call completes unaborted. -/
theorem summarise_failure_falls_back_to_error_text_witness :
    summarise_and_compress 1 demo_store 1 5 (.error "x") =
      (true, store_insert demo_store 1
        [compressed_context summary_error_fallback, compressed_ack]) ∧
    (handle_message 50000 empty_store 2 "hi" demo_env).aborted = false :=
  ⟨summarise_failure_falls_back_to_error_text.1 1 demo_store 1 5 "x"
      [new_user_turn "x", demo_model_content "y"] (by decide) rfl (by decide),
    summarise_failure_falls_back_to_error_text.2 50000 empty_store 2 "hi"
      demo_env (demo_resp "hello" 10) ⟨demo_model_content "hello"⟩ [] rfl rfl
      rfl⟩

/-- C8 counterexample: when the first response has no candidates at all,
the fallback apology is sent but the history update then raises, and the
raw "Error: list index out of range" message is surfaced to the user, so
the claim that no error is surfaced fails. -/
theorem malformed_response_error_surfaced_counterexample :
    first_function_call ⟨[], none, none⟩ = none ∧
    (handle_message 50000 empty_store 1 "hi" c8_env).replies =
      [fallback_reply, "Error: " ++ index_error] ∧
    (handle_message 50000 empty_store 1 "hi" c8_env).aborted = true := by
  decide

/-- C8 amended: if the first response has a candidate but its first part
carries no function call and its text is absent or empty, the exchange is a
direct reply whose first sent message is the fallback apology and it does
not abort; but if the response has no candidates, the apology is followed
by a surfaced "Error: list index out of range" message, the exchange
aborts, and no turns are appended. -/
theorem malformed_response_fallback_behaviour :
    (∀ (limit : Nat) (store : Store) (uid : Nat) (t : String) (env : Env)
      (resp : GenerateResponse) (cand : Candidate) (crest : List Candidate),
      env.firstCall = .ok resp → resp.candidates = cand :: crest →
      first_function_call resp = none →
      (resp.text = none ∨ resp.text = some "") →
      (handle_message limit store uid t env).replies.head? =
        some fallback_reply ∧
      (handle_message limit store uid t env).aborted = false) ∧
    (∀ (limit : Nat) (store : Store) (uid : Nat) (t : String) (env : Env)
      (resp : GenerateResponse),
      env.firstCall = .ok resp → resp.candidates = [] →
      (handle_message limit store uid t env).replies =
        [response_text_or_fallback resp, "Error: " ++ index_error] ∧
      (handle_message limit store uid t env).aborted = true ∧
      ∀ k, historyVal (handle_message limit store uid t env).store k =
        historyVal store k) := by
  constructor
  · intro limit store uid t env resp cand crest hok hcand hffc htext
    rw [handle_message_direct limit store uid t env resp hok hffc]
    rw [direct_branch_eq limit (get_history store uid).2 uid
      (get_history store uid).1 (new_user_turn t) resp env.summaryCall cand
      crest hcand]
    have hfb : response_text_or_fallback resp = fallback_reply := by
      cases htext with
      | inl h => unfold response_text_or_fallback; rw [h]
      | inr h => unfold response_text_or_fallback; rw [h]; rfl
    constructor
    · show ([response_text_or_fallback resp] ++ _).head? = some fallback_reply
      rw [hfb]
      rfl
    · rfl
  · intro limit store uid t env resp hok hcand
    have hffc : first_function_call resp = none := by
      unfold first_function_call
      rw [hcand]
    rw [handle_message_direct limit store uid t env resp hok hffc]
    rw [direct_branch_no_candidates _ _ _ _ _ _ _ hcand]
    exact ⟨rfl, rfl, fun k => get_history_snd_val store uid k⟩

/-- Witness for C8 amended: a candidate-bearing malformed response leads
with the apology and completes; a candidate-free response surfaces the
index error and aborts with history unchanged. -/
theorem malformed_response_fallback_behaviour_witness :
    ((handle_message 50000 empty_store 1 "q" c8b_env).replies.head? =
      some fallback_reply ∧
      (handle_message 50000 empty_store 1 "q" c8b_env).aborted = false) ∧
    (handle_message 50000 empty_store 4 "q" c8_env).replies =
      [response_text_or_fallback ⟨[], none, none⟩, "Error: " ++ index_error] ∧
    historyVal (handle_message 50000 empty_store 4 "q" c8_env).store 4 =
      historyVal empty_store 4 :=
  ⟨malformed_response_fallback_behaviour.1 50000 empty_store 1 "q" c8b_env
      c8b_resp ⟨demo_model_content "x"⟩ [] rfl rfl rfl (Or.inl rfl),
    (malformed_response_fallback_behaviour.2 50000 empty_store 4 "q" c8_env
      ⟨[], none, none⟩ rfl rfl).1,
    (malformed_response_fallback_behaviour.2 50000 empty_store 4 "q" c8_env
      ⟨[], none, none⟩ rfl rfl).2.2 4⟩

end MoneyBot
